import Mathlib

/-!
Verification of `python-lightblueclient` (`lightblueclient/__init__.py`).

The library is a thin HTTPS client: a `DataConnection` parses a service URL,
and `find` / `insert` build a JSON request body from a caller-supplied
request (a dict or a raw string) plus optional filter arguments, send it,
and decode the JSON response.

The embedding below models:
  * Python/JSON values as the mutual inductive `Json` / `JsonList` / `JsonObj`
    (numbers restricted to integers, which is what the client manipulates);
  * `json.dumps` (default options: `ensure_ascii=True`, separators
    `", "` and `": "`) as `jsonDumps`;
  * `json.loads` in two layers: `jsonLoads`, a recursive-descent reading of
    the JSON grammar with an explicit recursion budget (one unit per parser
    call, so an input-length budget always suffices) that keeps each
    object's member sequence in source order and enforces Python's number
    grammar (a leading `0` matches alone, so leading-zero numerals leave
    trailing input and are rejected); and `jsonLoadsDict`, which follows it
    with Python's dict construction, so duplicated object keys resolve
    last-wins.  Lone surrogate escapes are rejected since Lean `Char`
    cannot represent them; `jsonDumps` never emits them;
  * `urlparse` restricted to `scheme://host[:port]/path` URLs, over `List Char`;
  * the request-building logic of `DataConnection.find` / `DataConnection.insert`
    line by line, including Python's `TypeError` on item assignment to a `str`
    and the function-level mutable default `request={}` dicts (state `Defaults`);
  * the `with`-statement protocol (`__enter__` / `__exit__` / `close`).
-/

set_option maxHeartbeats 1000000

namespace Lightblue

/-- Left curly brace character (written numerically throughout). -/
def lbrace : Char := Char.ofNat 123

/-- Right curly brace character (written numerically throughout). -/
def rbrace : Char := Char.ofNat 125

mutual

/-- JSON values (Python numbers restricted to `int`). -/
inductive Json where
  | null : Json
  | bool (b : Bool) : Json
  | num (n : Int) : Json
  | str (s : String) : Json
  | arr (items : JsonList) : Json
  | obj (members : JsonObj) : Json

/-- A JSON array, as a cons list. -/
inductive JsonList where
  | nil : JsonList
  | cons (hd : Json) (tl : JsonList) : JsonList

/-- A JSON object: an association list of string keys and values,
in insertion order (Python dict order). -/
inductive JsonObj where
  | nil : JsonObj
  | cons (k : String) (v : Json) (tl : JsonObj) : JsonObj

end

/-- Python truthiness of a value (`if x:`): `None`, `False`, `0`, empty
string / list / dict are falsy, everything else truthy. -/
def pyTruthy : Json → Bool
  | .null => false
  | .bool b => b
  | .num n => n != 0
  | .str s => s != ""
  | .arr .nil => false
  | .arr _ => true
  | .obj .nil => false
  | .obj _ => true

/-- Truthiness of an optional argument (`None` default is falsy). -/
def optTruthy : Option Json → Bool
  | none => false
  | some v => pyTruthy v

/-- Python dict assignment `d[k] = v`: replace the value at `k` if the key is
present, otherwise append the key. -/
def JsonObj.set : JsonObj → String → Json → JsonObj
  | .nil, k, v => .cons k v .nil
  | .cons k0 v0 t, k, v =>
      if k0 = k then .cons k v t else .cons k0 v0 (JsonObj.set t k v)

/-- Lookup of a key in an object. -/
def JsonObj.lookup : JsonObj → String → Option Json
  | .nil, _ => none
  | .cons k0 v0 t, k => if k0 = k then some v0 else JsonObj.lookup t k

/-- `len` of a Python dict. -/
def JsonObj.length : JsonObj → Nat
  | .nil => 0
  | .cons _ _ t => JsonObj.length t + 1

/-! ### Serialization: model of `json.dumps` -/

/-- The decimal digit character for `n < 10`. -/
def digitChar (n : Nat) : Char := Char.ofNat (48 + n)

/-- Decimal digits of a natural number, most significant first; the budget
argument makes the recursion structural (`n + 1` units always suffice). -/
def natDigitsAux : Nat → Nat → List Char
  | 0, _ => []
  | fuel + 1, n =>
      if n < 10 then [digitChar n]
      else natDigitsAux fuel (n / 10) ++ [digitChar (n % 10)]

/-- Decimal representation of a natural number (`str(n)` in Python). -/
def natDigits (n : Nat) : List Char := natDigitsAux (n + 1) n

/-- Decimal representation of an integer (`str(n)` in Python). -/
def intDump (n : Int) : List Char :=
  if n < 0 then '-' :: natDigits (-n).toNat else natDigits n.toNat

/-- Lowercase hexadecimal digit character for `n < 16`. -/
def hexDigitChar (n : Nat) : Char :=
  if n < 10 then Char.ofNat (48 + n) else Char.ofNat (87 + n)

/-- Four lowercase hex digits of `n < 0x10000` (the `XXXX` in `\uXXXX`). -/
def hex4 (n : Nat) : List Char :=
  [hexDigitChar (n / 4096 % 16), hexDigitChar (n / 256 % 16),
   hexDigitChar (n / 16 % 16), hexDigitChar (n % 16)]

/-- JSON string escaping of one character, following `json.dumps` with its
default `ensure_ascii=True`: two-character escapes for quote, backslash and
the common control characters, `\uXXXX` for other control or non-ASCII
characters, and surrogate pairs above the basic multilingual plane. -/
def escChar (c : Char) : List Char :=
  if c = '"' then ['\\', '"']
  else if c = '\\' then ['\\', '\\']
  else if c = Char.ofNat 8 then ['\\', 'b']
  else if c = Char.ofNat 9 then ['\\', 't']
  else if c = Char.ofNat 10 then ['\\', 'n']
  else if c = Char.ofNat 12 then ['\\', 'f']
  else if c = Char.ofNat 13 then ['\\', 'r']
  else if c.toNat < 32 then '\\' :: 'u' :: hex4 c.toNat
  else if c.toNat < 127 then [c]
  else if c.toNat < 65536 then '\\' :: 'u' :: hex4 c.toNat
  else
    ('\\' :: 'u' :: hex4 (55296 + (c.toNat - 65536) / 1024)) ++
    ('\\' :: 'u' :: hex4 (56320 + (c.toNat - 65536) % 1024))

/-- Escape every character of a string body. -/
def escList : List Char → List Char
  | [] => []
  | c :: cs => escChar c ++ escList cs

/-- Serialized JSON string literal, quotes included. -/
def dumpString (s : String) : List Char := '"' :: (escList s.data ++ ['"'])

mutual

/-- Characters of the `json.dumps` serialization of a value. -/
def dumpVal : Json → List Char
  | .null => 'n' :: 'u' :: 'l' :: 'l' :: []
  | .bool true => 't' :: 'r' :: 'u' :: 'e' :: []
  | .bool false => 'f' :: 'a' :: 'l' :: 's' :: 'e' :: []
  | .num n => intDump n
  | .str s => dumpString s
  | .arr items => '[' :: (dumpItems items ++ [']'])
  | .obj members => lbrace :: (dumpMembers members ++ [rbrace])

/-- Array items: first item bare, the rest behind `", "` separators. -/
def dumpItems : JsonList → List Char
  | .nil => []
  | .cons v t => dumpVal v ++ dumpItemsRest t

/-- Items after the first, each preceded by the `", "` separator. -/
def dumpItemsRest : JsonList → List Char
  | .nil => []
  | .cons v t => ',' :: ' ' :: (dumpVal v ++ dumpItemsRest t)

/-- Object members: first member bare, the rest behind `", "` separators;
keys and values joined by `": "`. -/
def dumpMembers : JsonObj → List Char
  | .nil => []
  | .cons k v t => dumpString k ++ ':' :: ' ' :: (dumpVal v ++ dumpMembersRest t)

/-- Members after the first, each preceded by the `", "` separator. -/
def dumpMembersRest : JsonObj → List Char
  | .nil => []
  | .cons k v t =>
      ',' :: ' ' :: (dumpString k ++ ':' :: ' ' :: (dumpVal v ++ dumpMembersRest t))

end

/-- Model of `json.dumps` with its default options. -/
def jsonDumps (v : Json) : String := String.mk (dumpVal v)

/-! ### Deserialization: model of `json.loads` -/

/-- JSON whitespace (the characters `json.loads` skips between tokens). -/
def isWs (c : Char) : Bool :=
  c = ' ' || c = Char.ofNat 9 || c = Char.ofNat 10 || c = Char.ofNat 13

/-- Skip leading whitespace. -/
def skipWs (l : List Char) : List Char := l.dropWhile isWs

/-- Decimal digit recognizer (`0` through `9`). -/
def isDigitC (c : Char) : Bool := 48 ≤ c.toNat && c.toNat ≤ 57

/-- Value of a run of decimal digit characters, most significant first. -/
def natFromDigits (l : List Char) : Nat :=
  l.foldl (fun a c => 10 * a + (c.toNat - 48)) 0

/-- Parse a natural number by the JSON grammar `0 | [1-9][0-9]*`, as Python
does with the ordered alternation of its number regexp: a leading `0` matches
alone, so `012` parses as `0` leaving `12` behind (which no context accepts,
making `json.loads` reject such numerals). -/
def parseNat (l : List Char) : Option (Nat × List Char) :=
  match l.takeWhile isDigitC with
  | [] => none
  | d :: ds =>
      if d = '0' then some (0, l.drop 1)
      else some (natFromDigits (d :: ds), l.drop (d :: ds).length)

/-- Parse an optionally negated run of decimal digits into an integer. -/
def parseInt (l : List Char) : Option (Int × List Char) :=
  match l with
  | [] => none
  | c :: t =>
      if c = '-' then (parseNat t).map (fun p => (-(p.1 : Int), p.2))
      else (parseNat (c :: t)).map (fun p => ((p.1 : Int), p.2))

/-- Hexadecimal digit recognizer (`0-9`, `a-f`, `A-F`). -/
def isHexD (c : Char) : Bool :=
  (48 ≤ c.toNat && c.toNat ≤ 57) || (97 ≤ c.toNat && c.toNat ≤ 102) ||
  (65 ≤ c.toNat && c.toNat ≤ 70)

/-- Value of a hexadecimal digit character. -/
def hexVal (c : Char) : Nat :=
  if c.toNat ≤ 57 then c.toNat - 48
  else if c.toNat ≤ 70 then c.toNat - 55
  else c.toNat - 87

mutual

/-- Parse the body of a JSON string literal (the opening quote already
consumed), returning the decoded characters and the input after the closing
quote.  Escape handling follows `json.loads`: the short escapes, `\uXXXX`,
and surrogate pairs; lone surrogates are rejected (Lean `Char` cannot hold
them; `jsonDumps` never produces them). -/
def parseStringBody : List Char → Option (List Char × List Char)
  | [] => none
  | c :: rest =>
    if c = '"' then some ([], rest)
    else if c = '\\' then parseEscape rest
    else if c.toNat < 32 then none
    else (parseStringBody rest).map (fun p => (c :: p.1, p.2))

/-- Parse what follows a backslash inside a string literal. -/
def parseEscape : List Char → Option (List Char × List Char)
  | [] => none
  | e :: rest2 =>
    if e = '"' then (parseStringBody rest2).map (fun p => ('"' :: p.1, p.2))
    else if e = '\\' then (parseStringBody rest2).map (fun p => ('\\' :: p.1, p.2))
    else if e = '/' then (parseStringBody rest2).map (fun p => ('/' :: p.1, p.2))
    else if e = 'b' then (parseStringBody rest2).map (fun p => (Char.ofNat 8 :: p.1, p.2))
    else if e = 't' then (parseStringBody rest2).map (fun p => (Char.ofNat 9 :: p.1, p.2))
    else if e = 'n' then (parseStringBody rest2).map (fun p => (Char.ofNat 10 :: p.1, p.2))
    else if e = 'f' then (parseStringBody rest2).map (fun p => (Char.ofNat 12 :: p.1, p.2))
    else if e = 'r' then (parseStringBody rest2).map (fun p => (Char.ofNat 13 :: p.1, p.2))
    else if e = 'u' then parseUEsc rest2
    else none

/-- Parse the four hex digits of `\uXXXX` and dispatch on surrogates. -/
def parseUEsc : List Char → Option (List Char × List Char)
  | a :: b :: c2 :: d :: rest3 =>
    if isHexD a && isHexD b && isHexD c2 && isHexD d then
      let n := hexVal a * 4096 + hexVal b * 256 + hexVal c2 * 16 + hexVal d
      if 55296 ≤ n ∧ n < 56320 then parseLowSur n rest3
      else if 56320 ≤ n ∧ n < 57344 then none
      else (parseStringBody rest3).map (fun p => (Char.ofNat n :: p.1, p.2))
    else none
  | _ => none

/-- After a high surrogate `\uXXXX` (value `n`), parse the required low
surrogate escape and combine the pair into one code point. -/
def parseLowSur (n : Nat) : List Char → Option (List Char × List Char)
  | b1 :: b2 :: a2 :: b3 :: c3 :: d2 :: rest4 =>
    if b1 = '\\' ∧ b2 = 'u' then
      if isHexD a2 && isHexD b3 && isHexD c3 && isHexD d2 then
        let m := hexVal a2 * 4096 + hexVal b3 * 256 + hexVal c3 * 16 + hexVal d2
        if 56320 ≤ m ∧ m < 57344 then
          (parseStringBody rest4).map (fun p =>
            (Char.ofNat (65536 + (n - 55296) * 1024 + (m - 56320)) :: p.1, p.2))
        else none
      else none
    else none
  | _ => none

end

mutual

/-- Parse one JSON value, skipping leading whitespace.  `fuel` bounds the
recursion; one unit is spent per call, so any budget at least the length of
the serialized value suffices. -/
def parseVal : Nat → List Char → Option (Json × List Char)
  | 0, _ => none
  | fuel + 1, input =>
    match skipWs input with
    | [] => none
    | c :: rest =>
      if c = 'n' then
        match rest with
        | 'u' :: 'l' :: 'l' :: r => some (.null, r)
        | _ => none
      else if c = 't' then
        match rest with
        | 'r' :: 'u' :: 'e' :: r => some (.bool true, r)
        | _ => none
      else if c = 'f' then
        match rest with
        | 'a' :: 'l' :: 's' :: 'e' :: r => some (.bool false, r)
        | _ => none
      else if c = '"' then
        (parseStringBody rest).map (fun p => (Json.str (String.mk p.1), p.2))
      else if c = '[' then
        (parseItems fuel rest).map (fun p => (Json.arr p.1, p.2))
      else if c = lbrace then
        (parseMembers fuel rest).map (fun p => (Json.obj p.1, p.2))
      else if c = '-' || isDigitC c then
        (parseInt (c :: rest)).map (fun p => (Json.num p.1, p.2))
      else none

/-- Parse the items of an array, the opening `[` already consumed. -/
def parseItems : Nat → List Char → Option (JsonList × List Char)
  | 0, _ => none
  | fuel + 1, input =>
    match skipWs input with
    | [] => none
    | c :: rest =>
      if c = ']' then some (.nil, rest)
      else
        match parseVal fuel input with
        | none => none
        | some (v, r) =>
          match parseItemsRest fuel r with
          | none => none
          | some (t, r2) => some (.cons v t, r2)

/-- After an array item: expect `]` to close or `,` followed by another item. -/
def parseItemsRest : Nat → List Char → Option (JsonList × List Char)
  | 0, _ => none
  | fuel + 1, input =>
    match skipWs input with
    | [] => none
    | c :: rest =>
      if c = ']' then some (.nil, rest)
      else if c = ',' then
        match parseVal fuel rest with
        | none => none
        | some (v, r) =>
          match parseItemsRest fuel r with
          | none => none
          | some (t, r2) => some (.cons v t, r2)
      else none

/-- Parse the members of an object, the opening brace already consumed. -/
def parseMembers : Nat → List Char → Option (JsonObj × List Char)
  | 0, _ => none
  | fuel + 1, input =>
    match skipWs input with
    | [] => none
    | c :: rest =>
      if c = rbrace then some (.nil, rest)
      else if c = '"' then
        match parseStringBody rest with
        | none => none
        | some (k, r1) =>
          match skipWs r1 with
          | [] => none
          | c1 :: r2 =>
            if c1 = ':' then
              match parseVal fuel r2 with
              | none => none
              | some (v, r3) =>
                match parseMembersRest fuel r3 with
                | none => none
                | some (t, r4) => some (.cons (String.mk k) v t, r4)
            else none
      else none

/-- After an object member: expect the closing brace or `,` and another
`"key": value` pair. -/
def parseMembersRest : Nat → List Char → Option (JsonObj × List Char)
  | 0, _ => none
  | fuel + 1, input =>
    match skipWs input with
    | [] => none
    | c :: rest =>
      if c = rbrace then some (.nil, rest)
      else if c = ',' then
        match skipWs rest with
        | [] => none
        | c0 :: r0 =>
          if c0 = '"' then
            match parseStringBody r0 with
            | none => none
            | some (k, r1) =>
              match skipWs r1 with
              | [] => none
              | c1 :: r2 =>
                if c1 = ':' then
                  match parseVal fuel r2 with
                  | none => none
                  | some (v, r3) =>
                    match parseMembersRest fuel r3 with
                    | none => none
                    | some (t, r4) => some (.cons (String.mk k) v t, r4)
                else none
          else none
      else none

end

/-- Grammar-level reading of a JSON document: parse one value and require
only whitespace to remain, keeping every object's member sequence in source
order.  The recursion budget `length + 1` always suffices. -/
def jsonLoads (s : String) : Option Json :=
  match parseVal (s.data.length + 1) s.data with
  | some (v, rest) => if (skipWs rest).isEmpty then some v else none
  | none => none

mutual

/-- The value Python's `json.loads` hands back for a parsed document:
each object's member sequence becomes a dict built by repeated assignment,
so a duplicated key keeps its last value. -/
def canonVal : Json → Json
  | .null => .null
  | .bool b => .bool b
  | .num n => .num n
  | .str s => .str s
  | .arr items => .arr (canonItems items)
  | .obj members => .obj (canonMembers .nil members)

/-- Canonicalize every item of an array. -/
def canonItems : JsonList → JsonList
  | .nil => .nil
  | .cons v t => .cons (canonVal v) (canonItems t)

/-- Fold a member sequence into a dict with `d[k] = v` per member. -/
def canonMembers (acc : JsonObj) : JsonObj → JsonObj
  | .nil => acc
  | .cons k v t => canonMembers (acc.set k (canonVal v)) t

end

/-- Model of `json.loads`: the grammar-level reading followed by Python's
dict construction for objects (duplicate keys resolve last-wins). -/
def jsonLoadsDict (s : String) : Option Json :=
  (jsonLoads s).map canonVal

mutual

/-- A recursion budget sufficient for `parseVal` on the serialization of a
value (one unit per parser call along any path). -/
def need : Json → Nat
  | .null => 1
  | .bool _ => 1
  | .num _ => 1
  | .str _ => 1
  | .arr items => needL items + 1
  | .obj members => needO members + 1

/-- Budget for `parseItems` / `parseItemsRest` on serialized items. -/
def needL : JsonList → Nat
  | .nil => 1
  | .cons v t => max (need v) (needL t) + 1

/-- Budget for `parseMembers` / `parseMembersRest` on serialized members. -/
def needO : JsonObj → Nat
  | .nil => 1
  | .cons _ v t => max (need v) (needO t) + 1

end

/-- The next input character, if any, is not a decimal digit (so a number
parse cannot run past its serialization). -/
def headNotDigit : List Char → Prop
  | [] => True
  | c :: _ => isDigitC c = false

/-! ### The `DataConnection` request builders -/

/-- Python exceptions raised by the modelled code paths. -/
inductive PyError where
  | typeError (msg : String) : PyError
  | runtimeError (msg : String) : PyError
  | valueError (msg : String) : PyError
deriving DecidableEq

/-- One HTTP request as handed to `httplib`: method, path, optional body,
and headers. -/
structure HttpRequest where
  method : String
  path : String
  body : Option String
  headers : List (String × String)
deriving DecidableEq

/-- The `request` argument of `find` / `insert`: a dict or a raw
pre-serialized string. -/
inductive ReqArg where
  | dict (m : JsonObj) : ReqArg
  | str (s : String) : ReqArg

/-- Python truthiness of the request (`if request:`). -/
def reqTruthy : ReqArg → Bool
  | .dict .nil => false
  | .dict _ => true
  | .str s => s != ""

/-- Python `len(request)`. -/
def reqLen : ReqArg → Nat
  | .dict m => m.length
  | .str s => s.length

/-- `request[name] = value` on a dict succeeds; on a `str` it raises
`TypeError` (Python strings do not support item assignment). -/
def setReqKey (r : ReqArg) (k : String) (v : Json) : Except PyError ReqArg :=
  match r with
  | .dict m => .ok (.dict (m.set k v))
  | .str _ => .error (.typeError "str object does not support item assignment")

/-- One filter-merging step of `find` / `insert`:
`if arg: request[name] = arg`. -/
def mergeFilter (name : String) (arg : Option Json) (r : ReqArg) :
    Except PyError ReqArg :=
  match arg with
  | none => .ok r
  | some v => if pyTruthy v then setReqKey r name v else .ok r

/-- The four filter-merging steps of `find`, in source order. -/
def mergeFilters (projection query rangeArg sortArg : Option Json) (r : ReqArg) :
    Except PyError ReqArg :=
  (mergeFilter "projection" projection r).bind (fun r1 =>
  (mergeFilter "query" query r1).bind (fun r2 =>
  (mergeFilter "range" rangeArg r2).bind (fun r3 =>
  mergeFilter "sort" sortArg r3)))

/-- Dict-only form of one merging step (never raises). -/
def mergeFilterDict (name : String) (arg : Option Json) (m : JsonObj) : JsonObj :=
  match arg with
  | none => m
  | some v => if pyTruthy v then m.set name v else m

/-- Dict-only form of the four merging steps of `find`. -/
def mergeFiltersDict (projection query rangeArg sortArg : Option Json)
    (m : JsonObj) : JsonObj :=
  mergeFilterDict "sort" sortArg
    (mergeFilterDict "range" rangeArg
      (mergeFilterDict "query" query
        (mergeFilterDict "projection" projection m)))

/-- `json.dumps(request) if type(request) is not str else request`. -/
def serializeReq : ReqArg → String
  | .dict m => jsonDumps (.obj m)
  | .str s => s

/-- The endpoint path built by `find`. -/
def findPath (basePath entity version : String) : String :=
  basePath ++ "/find/" ++ entity ++ "/" ++ version

/-- The endpoint path built by `insert`. -/
def insertPath (basePath entity version : String) : String :=
  basePath ++ "/insert/" ++ entity ++ "/" ++ version

/-- The header dict sent with every request that carries a body. -/
def jsonHeaders : List (String × String) := [("Content-Type", "application/json")]

/-- `DataConnection.find`: merge non-empty filters into the request; if the
result is truthy, POST its serialization with the JSON content-type header,
else GET with no body.  An error value models a raised exception: nothing is
sent on the connection. -/
def find (basePath entity version : String)
    (projection query rangeArg sortArg : Option Json) (request : ReqArg) :
    Except PyError HttpRequest :=
  (mergeFilters projection query rangeArg sortArg request).bind (fun merged =>
    if reqTruthy merged then
      .ok ⟨"POST", findPath basePath entity version,
           some (serializeReq merged), jsonHeaders⟩
    else
      .ok ⟨"GET", findPath basePath entity version, none, []⟩)

/-- `DataConnection.insert`: raise `RuntimeError` if `data is None` and
`len(request) == 0`; else merge `data` and `projection` into the request and
PUT its serialization with the JSON content-type header.  An error value
models a raised exception: nothing is sent on the connection. -/
def insert (basePath entity version : String)
    (data projection : Option Json) (request : ReqArg) :
    Except PyError HttpRequest :=
  if data.isNone && reqLen request == 0 then
    .error (.runtimeError "Must provide data or request")
  else
    (mergeFilter "data" data request).bind (fun r1 =>
    (mergeFilter "projection" projection r1).bind (fun r2 =>
    .ok ⟨"PUT", insertPath basePath entity version,
         some (serializeReq r2), jsonHeaders⟩))

/-- `DataConnection._handle_response`: on HTTP 200 decode the body with
`json.loads` (`ValueError` if it is not valid JSON); otherwise raise
`RuntimeError` whose message carries the status code and the raw, un-parsed
body. -/
def handle_response (status : Nat) (body : String) : Except PyError Json :=
  if status = 200 then
    match jsonLoadsDict body with
    | some v => .ok v
    | none => .error (.valueError body)
  else
    .error (.runtimeError ("HTTP code: " ++ toString status ++ "; body " ++ body))

/-! ### Construction: URL parsing and path normalization -/

/-- Split `l` at the first `"://"`, returning what precedes the first `:`
and what follows `://`; `none` when the input is not of that form.  Models
the scheme/rest split `urlparse` performs on such URLs. -/
def splitSchemeRest : List Char → Option (List Char × List Char)
  | [] => none
  | c :: t =>
      if c = ':' then
        match t with
        | '/' :: '/' :: r => some ([], r)
        | _ => none
      else (splitSchemeRest t).map (fun p => (c :: p.1, p.2))

/-- The digits of a port suffix, all required to be decimal digits. -/
def portOfDigits (l : List Char) : Option Nat :=
  if l.isEmpty then none
  else if l.all isDigitC then some (natFromDigits l) else none

/-- The parsed components of a URL, as `urlparse` exposes them. -/
structure ParsedUrl where
  hostname : String
  port : Option Nat
  pathChars : List Char

/-- Model of `urlparse` restricted to `scheme://host[:port]/path` URLs:
the netloc is everything before the first `/` after the scheme, the path is
the rest (leading `/` included); within the netloc the hostname precedes an
optional `:port`. -/
def parseUrl (url : String) : ParsedUrl :=
  match splitSchemeRest url.data with
  | none => ⟨"", none, url.data⟩
  | some (_, rest) =>
      let netloc := rest.takeWhile (fun c => c ≠ '/')
      let path := rest.dropWhile (fun c => c ≠ '/')
      let host := netloc.takeWhile (fun c => c ≠ ':')
      let portPart := netloc.dropWhile (fun c => c ≠ ':')
      let port := match portPart with
        | [] => none
        | _ :: ds => portOfDigits ds
      ⟨String.mk host, port, path⟩

/-- Strip one trailing slash (`path[:-1]` guarded by `endswith('/')`). -/
def stripSlash (l : List Char) : List Char :=
  if l.getLast? = some '/' then l.dropLast else l

/-- The connection parameters a `DataConnection` holds after construction. -/
structure ConnInfo where
  hostname : String
  port : Nat
  path : String
deriving DecidableEq

/-- `DataConnection.__init__`: parse the URL, default the port to 443
(`parsed_url.port or 443`), and strip one trailing slash from the path. -/
def dcInit (url : String) : ConnInfo :=
  let parsed := parseUrl url
  let port := match parsed.port with
    | none => 443
    | some p => if p = 0 then 443 else p
  ⟨parsed.hostname, port, String.mk (stripSlash parsed.pathChars)⟩

/-! ### Mutable default `request={}` arguments -/

/-- The two function-level default dicts: `find` and `insert` each have their
own `request={}` default object, created once at function definition time and
shared by every call (to any instance) that omits `request`. -/
structure Defaults where
  findDefault : JsonObj
  insertDefault : JsonObj

/-- A call to `find` at the caller level: `request = none` means the argument
was omitted, so the shared default dict is used — and mutated in place by the
filter merges, which the updated state records. -/
def findCall (st : Defaults) (basePath entity version : String)
    (projection query rangeArg sortArg : Option Json) (request : Option ReqArg) :
    Except PyError HttpRequest × Defaults :=
  match request with
  | some r =>
      (find basePath entity version projection query rangeArg sortArg r, st)
  | none =>
      (find basePath entity version projection query rangeArg sortArg
         (.dict st.findDefault),
       { st with findDefault :=
           mergeFiltersDict projection query rangeArg sortArg st.findDefault })

/-- A call to `insert` at the caller level, tracking its own shared default
dict.  When the no-content `RuntimeError` fires it does so before any merge,
so the default is left untouched. -/
def insertCall (st : Defaults) (basePath entity version : String)
    (data projection : Option Json) (request : Option ReqArg) :
    Except PyError HttpRequest × Defaults :=
  match request with
  | some r => (insert basePath entity version data projection r, st)
  | none =>
      if data.isNone && st.insertDefault.length == 0 then
        (insert basePath entity version data projection (.dict st.insertDefault), st)
      else
        let merged := mergeFilterDict "projection" projection
          (mergeFilterDict "data" data st.insertDefault)
        (insert basePath entity version data projection (.dict st.insertDefault),
         { st with insertDefault := merged })

/-! ### Scoped lifecycle (`with` statement) -/

/-- Transport bookkeeping: how many times `close()` has run. -/
structure ConnState where
  closeCalls : Nat
deriving DecidableEq

/-- `DataConnection.close`: release the transport connection. -/
def closeConn (st : ConnState) : ConnState := { st with closeCalls := st.closeCalls + 1 }

/-- `DataConnection.__enter__`: returns the connection object itself. -/
def enterConn (c : ConnInfo) : ConnInfo := c

/-- The `with` statement: run the body on what `__enter__` returned; whether
the body returns normally or raises, `__exit__` runs (calling `close()`
once) and the body's outcome is propagated unchanged. -/
def withStmt {α : Type} (c : ConnInfo) (st : ConnState)
    (body : ConnInfo → ConnState → Except PyError α × ConnState) :
    Except PyError α × ConnState :=
  let r := body (enterConn c) st
  (r.1, closeConn r.2)

/-! ## Proofs
    ### Decimal digits and integer round-trip -/

theorem isDigitC_iff (c : Char) : isDigitC c = true ↔ 48 ≤ c.toNat ∧ c.toNat ≤ 57 := by
  simp [isDigitC]

theorem digitChar_toNat (d : Nat) (h : d < 10) : (digitChar d).toNat = 48 + d := by
  interval_cases d <;> decide

theorem natDigitsAux_digits (fuel : Nat) :
    ∀ n, n < fuel → ∀ c ∈ natDigitsAux fuel n, isDigitC c = true := by
  induction fuel with
  | zero => intro n h; omega
  | succ f ih =>
    intro n h c hc
    by_cases h10 : n < 10
    · simp [natDigitsAux, h10] at hc
      subst hc
      rw [isDigitC_iff, digitChar_toNat n h10]
      omega
    · simp [natDigitsAux, h10] at hc
      rcases hc with hc | hc
      · exact ih (n / 10) (by omega) c hc
      · subst hc
        rw [isDigitC_iff, digitChar_toNat (n % 10) (by omega)]
        omega

theorem natDigitsAux_ne_nil (fuel n : Nat) (h : n < fuel) : natDigitsAux fuel n ≠ [] := by
  cases fuel with
  | zero => omega
  | succ f =>
    by_cases h10 : n < 10 <;> simp [natDigitsAux, h10]

theorem natDigitsAux_foldl (fuel : Nat) :
    ∀ n a, n < fuel →
      (natDigitsAux fuel n).foldl (fun a c => 10 * a + (c.toNat - 48)) a =
        a * 10 ^ (natDigitsAux fuel n).length + n := by
  induction fuel with
  | zero => intro n a h; omega
  | succ f ih =>
    intro n a h
    by_cases h10 : n < 10
    · simp [natDigitsAux, h10, digitChar_toNat n h10]
      omega
    · have hrw : natDigitsAux (f + 1) n = natDigitsAux f (n / 10) ++ [digitChar (n % 10)] := by
        simp [natDigitsAux, h10]
      rw [hrw, List.foldl_append, ih (n / 10) a (by omega)]
      simp only [List.foldl_cons, List.foldl_nil, List.length_append, List.length_singleton,
        digitChar_toNat (n % 10) (by omega), pow_succ]
      have hx : a * (10 ^ (natDigitsAux f (n / 10)).length * 10) =
          a * 10 ^ (natDigitsAux f (n / 10)).length * 10 := by ring
      rw [hx]
      generalize a * 10 ^ (natDigitsAux f (n / 10)).length = y
      omega

theorem natDigits_ne_nil (n : Nat) : natDigits n ≠ [] :=
  natDigitsAux_ne_nil _ n (by omega)

theorem natDigits_digits (n : Nat) : ∀ c ∈ natDigits n, isDigitC c = true :=
  natDigitsAux_digits _ n (by omega)

theorem natFromDigits_natDigits (n : Nat) : natFromDigits (natDigits n) = n := by
  have h := natDigitsAux_foldl (n + 1) n 0 (by omega)
  simpa [natFromDigits, natDigits] using h

theorem takeWhile_digits :
    ∀ (l r : List Char), (∀ c ∈ l, isDigitC c = true) → headNotDigit r →
      (l ++ r).takeWhile isDigitC = l := by
  intro l r hl hr
  induction l with
  | nil =>
    cases r with
    | nil => simp
    | cons c t =>
      simp only [headNotDigit] at hr
      simp [List.takeWhile_cons, hr]
  | cons c l ih =>
    have hc : isDigitC c = true := hl c (by simp)
    simp only [List.cons_append, List.takeWhile_cons, hc]
    simp [ih (fun x hx => hl x (by simp [hx]))]

theorem natDigitsAux_head_ne_zero (fuel : Nat) :
    ∀ n, 0 < n → n < fuel →
      ∃ d ds, natDigitsAux fuel n = d :: ds ∧ d ≠ '0' := by
  induction fuel with
  | zero => intro n h0 h; omega
  | succ f ih =>
    intro n h0 h
    by_cases h10 : n < 10
    · refine ⟨digitChar n, [], by simp [natDigitsAux, h10], ?_⟩
      intro he
      have hto := congrArg Char.toNat he
      rw [digitChar_toNat n h10, show ('0' : Char).toNat = 48 from rfl] at hto
      omega
    · obtain ⟨d, ds, hd, hne⟩ := ih (n / 10) (by omega) (by omega)
      exact ⟨d, ds ++ [digitChar (n % 10)], by simp [natDigitsAux, h10, hd], hne⟩

theorem parseNat_natDigits (n : Nat) (rest : List Char) (h : headNotDigit rest) :
    parseNat (natDigits n ++ rest) = some (n, rest) := by
  rcases Nat.eq_zero_or_pos n with hz | hp
  · subst hz
    unfold parseNat
    rw [takeWhile_digits _ _ (natDigits_digits 0) h,
      show natDigits 0 = ['0'] from rfl]
    simp
  · obtain ⟨d, ds, hd, hne⟩ := natDigitsAux_head_ne_zero (n + 1) n hp (by omega)
    have hd' : natDigits n = d :: ds := hd
    unfold parseNat
    rw [takeWhile_digits _ _ (natDigits_digits n) h, hd']
    dsimp only
    rw [if_neg hne, ← hd', natFromDigits_natDigits, List.drop_left]

theorem intDump_head (n : Int) :
    ∃ c t, intDump n = c :: t ∧ isWs c = false ∧ c ≠ 'n' ∧ c ≠ 't' ∧ c ≠ 'f' ∧
      c ≠ '"' ∧ c ≠ '[' ∧ c ≠ lbrace ∧ c ≠ ']' ∧ c ≠ ',' ∧ c ≠ rbrace ∧
      (c = '-' || isDigitC c) = true := by
  by_cases hneg : n < 0
  · refine ⟨'-', natDigits (-n).toNat, by simp [intDump, hneg], ?_⟩
    refine ⟨by decide, by decide, by decide, by decide, by decide, by decide, by decide,
      by decide, by decide, by decide, by decide⟩
  · obtain ⟨c, t, hct⟩ : ∃ c t, natDigits n.toNat = c :: t := by
      cases hd : natDigits n.toNat with
      | nil => exact absurd hd (natDigits_ne_nil _)
      | cons c t => exact ⟨c, t, rfl⟩
    have hc : isDigitC c = true := natDigits_digits n.toNat c (by rw [hct]; simp)
    have hb := (isDigitC_iff c).mp hc
    refine ⟨c, t, by simp [intDump, hneg, hct], ?_⟩
    have hne : ∀ x : Char, c = x → isDigitC x = true := fun x hx => hx ▸ hc
    refine ⟨?_, ?_, ?_, ?_, ?_, ?_, ?_, ?_, ?_, ?_, ?_⟩
    · simp only [isWs, Bool.or_eq_false_iff, decide_eq_false_iff_not]
      refine ⟨⟨⟨fun h => ?_, fun h => ?_⟩, fun h => ?_⟩, fun h => ?_⟩ <;>
        · have := hne _ h; revert this; decide
    · intro h; have := hne _ h; revert this; decide
    · intro h; have := hne _ h; revert this; decide
    · intro h; have := hne _ h; revert this; decide
    · intro h; have := hne _ h; revert this; decide
    · intro h; have := hne _ h; revert this; decide
    · intro h; have := hne _ h; revert this; decide
    · intro h; have := hne _ h; revert this; decide
    · intro h; have := hne _ h; revert this; decide
    · intro h; have := hne _ h; revert this; decide
    · simp [hc]

theorem parseInt_cons (c : Char) (t : List Char) :
    parseInt (c :: t) =
      if c = '-' then (parseNat t).map (fun p => (-(p.1 : Int), p.2))
      else (parseNat (c :: t)).map (fun p => ((p.1 : Int), p.2)) := rfl

theorem parseInt_intDump (n : Int) (rest : List Char) (h : headNotDigit rest) :
    parseInt (intDump n ++ rest) = some (n, rest) := by
  by_cases hneg : n < 0
  · simp only [intDump, if_pos hneg, List.cons_append]
    rw [parseInt_cons, if_pos rfl, parseNat_natDigits _ _ h]
    simp only [Option.map_some']
    have hnn : (0 : Int) ≤ -n := by omega
    rw [Int.toNat_of_nonneg hnn]
    simp
  · obtain ⟨c, t, hct⟩ : ∃ c t, natDigits n.toNat = c :: t := by
      cases hd : natDigits n.toNat with
      | nil => exact absurd hd (natDigits_ne_nil _)
      | cons c t => exact ⟨c, t, rfl⟩
    have hc : isDigitC c = true := natDigits_digits n.toNat c (by rw [hct]; simp)
    have hdump : intDump n = natDigits n.toNat := by simp [intDump, hneg]
    rw [hdump, hct, List.cons_append]
    have hcm : c ≠ '-' := by
      intro he
      rw [he] at hc
      exact absurd hc (by decide)
    rw [parseInt_cons, if_neg hcm, ← List.cons_append, ← hct, parseNat_natDigits _ _ h]
    simp only [Option.map_some']
    rw [Int.toNat_of_nonneg (by omega)]

/-! ### String escaping round-trip -/

theorem char_valid_nat (c : Char) :
    c.toNat < 55296 ∨ (57344 ≤ c.toNat ∧ c.toNat < 1114112) := by
  have h : c.val.toNat < 55296 ∨ 57343 < c.val.toNat ∧ c.val.toNat < 1114112 := c.valid
  have he : c.toNat = c.val.toNat := rfl
  rw [he]
  omega

theorem hexd : ∀ m : Nat, m < 16 →
    isHexD (hexDigitChar m) = true ∧ hexVal (hexDigitChar m) = m := by decide

theorem parse_hex4 (n : Nat) (h : n < 65536) :
    isHexD (hexDigitChar (n / 4096 % 16)) = true ∧
    isHexD (hexDigitChar (n / 256 % 16)) = true ∧
    isHexD (hexDigitChar (n / 16 % 16)) = true ∧
    isHexD (hexDigitChar (n % 16)) = true ∧
    hexVal (hexDigitChar (n / 4096 % 16)) * 4096 + hexVal (hexDigitChar (n / 256 % 16)) * 256 +
      hexVal (hexDigitChar (n / 16 % 16)) * 16 + hexVal (hexDigitChar (n % 16)) = n := by
  obtain ⟨i1, e1⟩ := hexd (n / 4096 % 16) (Nat.mod_lt _ (by omega))
  obtain ⟨i2, e2⟩ := hexd (n / 256 % 16) (Nat.mod_lt _ (by omega))
  obtain ⟨i3, e3⟩ := hexd (n / 16 % 16) (Nat.mod_lt _ (by omega))
  obtain ⟨i4, e4⟩ := hexd (n % 16) (Nat.mod_lt _ (by omega))
  refine ⟨i1, i2, i3, i4, ?_⟩
  rw [e1, e2, e3, e4]
  omega

theorem psb_backslash (r : List Char) : parseStringBody ('\\' :: r) = parseEscape r := by
  simp [parseStringBody]

theorem pesc_u (r : List Char) : parseEscape ('u' :: r) = parseUEsc r := by
  simp [parseEscape]

theorem parseStringBody_u (n : Nat) (hlt : n < 65536) (hlo : n < 55296 ∨ 57344 ≤ n)
    (t : List Char) :
    parseStringBody ('\\' :: 'u' :: (hex4 n ++ t)) =
      (parseStringBody t).map (fun p => (Char.ofNat n :: p.1, p.2)) := by
  obtain ⟨i1, i2, i3, i4, hsum⟩ := parse_hex4 n hlt
  have h1 : ¬(55296 ≤ n ∧ n < 56320) := by omega
  have h2 : ¬(56320 ≤ n ∧ n < 57344) := by omega
  simp only [hex4, List.cons_append]
  rw [psb_backslash, pesc_u]
  simp [parseUEsc, i1, i2, i3, i4, hsum, h1, h2]

theorem parseStringBody_pair (n : Nat) (hge : 65536 ≤ n) (hlt : n < 1114112)
    (t : List Char) :
    parseStringBody ('\\' :: 'u' ::
        (hex4 (55296 + (n - 65536) / 1024) ++
          ('\\' :: 'u' :: (hex4 (56320 + (n - 65536) % 1024) ++ t)))) =
      (parseStringBody t).map (fun p => (Char.ofNat n :: p.1, p.2)) := by
  have hhi : 55296 + (n - 65536) / 1024 < 65536 := by omega
  have hloB : 56320 + (n - 65536) % 1024 < 65536 := by omega
  obtain ⟨i1, i2, i3, i4, hsum1⟩ := parse_hex4 (55296 + (n - 65536) / 1024) hhi
  obtain ⟨j1, j2, j3, j4, hsum2⟩ := parse_hex4 (56320 + (n - 65536) % 1024) hloB
  have hr1 : 55296 ≤ 55296 + (n - 65536) / 1024 ∧ 55296 + (n - 65536) / 1024 < 56320 := by
    omega
  have hr2 : 56320 ≤ 56320 + (n - 65536) % 1024 ∧ 56320 + (n - 65536) % 1024 < 57344 := by
    omega
  have hcomb : 65536 + (55296 + (n - 65536) / 1024 - 55296) * 1024 +
      (56320 + (n - 65536) % 1024 - 56320) = n := by omega
  simp only [hex4, List.cons_append]
  rw [psb_backslash, pesc_u]
  simp only [parseUEsc, i1, i2, i3, i4, Bool.and_self, if_true, hsum1]
  rw [if_pos hr1]
  simp [parseLowSur, j1, j2, j3, j4, hsum2, hr2, hcomb]
  rw [show 65536 + (n - 65536) / 1024 * 1024 + (n - 65536) % 1024 = n from by omega]

theorem parseStringBody_esc (cs : List Char) :
    ∀ rest : List Char, parseStringBody (escList cs ++ '"' :: rest) = some (cs, rest) := by
  induction cs with
  | nil =>
    intro rest
    simp only [escList, List.nil_append]
    simp [parseStringBody]
  | cons c cs ih =>
    intro rest
    rw [show escList (c :: cs) = escChar c ++ escList cs from rfl, List.append_assoc]
    by_cases h1 : c = '"'
    · subst h1
      rw [show escChar '"' = ['\\', '"'] from rfl]
      simp only [List.cons_append, List.nil_append]
      rw [psb_backslash]
      simp [parseEscape, ih rest]
    · by_cases h2 : c = '\\'
      · subst h2
        rw [show escChar '\\' = ['\\', '\\'] from rfl]
        simp only [List.cons_append, List.nil_append]
        rw [psb_backslash]
        simp [parseEscape, ih rest]
      · by_cases h3 : c = Char.ofNat 8
        · subst h3
          rw [show escChar (Char.ofNat 8) = ['\\', 'b'] from rfl]
          simp only [List.cons_append, List.nil_append]
          rw [psb_backslash]
          simp [parseEscape, ih rest]
        · by_cases h4 : c = Char.ofNat 9
          · subst h4
            rw [show escChar (Char.ofNat 9) = ['\\', 't'] from rfl]
            simp only [List.cons_append, List.nil_append]
            rw [psb_backslash]
            simp [parseEscape, ih rest]
          · by_cases h5 : c = Char.ofNat 10
            · subst h5
              rw [show escChar (Char.ofNat 10) = ['\\', 'n'] from rfl]
              simp only [List.cons_append, List.nil_append]
              rw [psb_backslash]
              simp [parseEscape, ih rest]
            · by_cases h6 : c = Char.ofNat 12
              · subst h6
                rw [show escChar (Char.ofNat 12) = ['\\', 'f'] from rfl]
                simp only [List.cons_append, List.nil_append]
                rw [psb_backslash]
                simp [parseEscape, ih rest]
              · by_cases h7 : c = Char.ofNat 13
                · subst h7
                  rw [show escChar (Char.ofNat 13) = ['\\', 'r'] from rfl]
                  simp only [List.cons_append, List.nil_append]
                  rw [psb_backslash]
                  simp [parseEscape, ih rest]
                · by_cases h8 : c.toNat < 32
                  · have hesc : escChar c = '\\' :: 'u' :: hex4 c.toNat := by
                      rw [escChar, if_neg h1, if_neg h2, if_neg h3, if_neg h4, if_neg h5,
                        if_neg h6, if_neg h7, if_pos h8]
                    rw [hesc, List.cons_append, List.cons_append,
                      parseStringBody_u c.toNat (by omega) (by omega) _, ih rest]
                    simp [Char.ofNat_toNat]
                  · by_cases h9 : c.toNat < 127
                    · have hesc : escChar c = [c] := by
                        rw [escChar, if_neg h1, if_neg h2, if_neg h3, if_neg h4, if_neg h5,
                          if_neg h6, if_neg h7, if_neg h8, if_pos h9]
                      rw [hesc, List.singleton_append]
                      simp only [parseStringBody]
                      rw [if_neg h1, if_neg h2, if_neg h8, ih rest]
                      rfl
                    · by_cases h10 : c.toNat < 65536
                      · have hesc : escChar c = '\\' :: 'u' :: hex4 c.toNat := by
                          rw [escChar, if_neg h1, if_neg h2, if_neg h3, if_neg h4, if_neg h5,
                            if_neg h6, if_neg h7, if_neg h8, if_neg h9, if_pos h10]
                        have hlo : c.toNat < 55296 ∨ 57344 ≤ c.toNat := by
                          rcases char_valid_nat c with hv | hv
                          · exact Or.inl hv
                          · exact Or.inr hv.1
                        rw [hesc, List.cons_append, List.cons_append,
                          parseStringBody_u c.toNat h10 hlo _, ih rest]
                        simp [Char.ofNat_toNat]
                      · have hesc : escChar c =
                            ('\\' :: 'u' :: hex4 (55296 + (c.toNat - 65536) / 1024)) ++
                            ('\\' :: 'u' :: hex4 (56320 + (c.toNat - 65536) % 1024)) := by
                          rw [escChar, if_neg h1, if_neg h2, if_neg h3, if_neg h4, if_neg h5,
                            if_neg h6, if_neg h7, if_neg h8, if_neg h9, if_neg h10]
                        have hv2 : c.toNat < 1114112 := by
                          rcases char_valid_nat c with hv | hv
                          · omega
                          · exact hv.2
                        rw [hesc]
                        rw [show (('\\' :: 'u' :: hex4 (55296 + (c.toNat - 65536) / 1024)) ++
                            ('\\' :: 'u' :: hex4 (56320 + (c.toNat - 65536) % 1024))) ++
                            (escList cs ++ '"' :: rest) =
                            '\\' :: 'u' :: (hex4 (55296 + (c.toNat - 65536) / 1024) ++
                              ('\\' :: 'u' :: (hex4 (56320 + (c.toNat - 65536) % 1024) ++
                                (escList cs ++ '"' :: rest)))) from by
                          simp [List.cons_append, List.append_assoc]]
                        rw [parseStringBody_pair c.toNat (by omega) hv2 _, ih rest]
                        simp [Char.ofNat_toNat]

/-! ### Round-trip of whole values -/

theorem stringMk_data (s : String) : String.mk s.data = s := by cases s; rfl

theorem skipWs_cons_not (c : Char) (t : List Char) (h : isWs c = false) :
    skipWs (c :: t) = c :: t := by
  simp [skipWs, List.dropWhile_cons, h]

theorem skipWs_cons_ws (c : Char) (t : List Char) (h : isWs c = true) :
    skipWs (c :: t) = skipWs t := by
  simp [skipWs, List.dropWhile_cons, h]

theorem parseVal_ws (fuel : Nat) (c : Char) (t : List Char) (h : isWs c = true) :
    parseVal fuel (c :: t) = parseVal fuel t := by
  cases fuel with
  | zero => rfl
  | succ f => simp only [parseVal, skipWs_cons_ws c t h]

theorem dumpVal_head (v : Json) :
    ∃ c t, dumpVal v = c :: t ∧ isWs c = false ∧ c ≠ ']' ∧ c ≠ ',' ∧ c ≠ rbrace := by
  cases v with
  | null => exact ⟨'n', _, rfl, by decide, by decide, by decide, by decide⟩
  | bool b =>
    cases b with
    | false => exact ⟨'f', _, rfl, by decide, by decide, by decide, by decide⟩
    | true => exact ⟨'t', _, rfl, by decide, by decide, by decide, by decide⟩
  | num n =>
    obtain ⟨c, t, hct, hws, _, _, _, _, _, _, hb1, hb2, hb3, _⟩ := intDump_head n
    exact ⟨c, t, by rw [show dumpVal (.num n) = intDump n from rfl, hct], hws, hb1, hb2, hb3⟩
  | str s => exact ⟨'"', _, rfl, by decide, by decide, by decide, by decide⟩
  | arr items => exact ⟨'[', _, rfl, by decide, by decide, by decide, by decide⟩
  | obj members => exact ⟨lbrace, _, rfl, by decide, by decide, by decide, by decide⟩

theorem headNotDigit_itemsRest (t : JsonList) (rest : List Char) :
    headNotDigit (dumpItemsRest t ++ ']' :: rest) := by
  cases t with
  | nil => show isDigitC ']' = false; decide
  | cons v tl => show isDigitC ',' = false; decide

theorem headNotDigit_memRest (t : JsonObj) (rest : List Char) :
    headNotDigit (dumpMembersRest t ++ rbrace :: rest) := by
  cases t with
  | nil => show isDigitC rbrace = false; decide
  | cons k v tl => show isDigitC ',' = false; decide

mutual

theorem pv_round (v : Json) : ∀ (fuel : Nat), need v ≤ fuel →
    ∀ (rest : List Char), headNotDigit rest →
      parseVal fuel (dumpVal v ++ rest) = some (v, rest) := by
  intro fuel hf rest hrest
  cases v with
  | null =>
    cases fuel with
    | zero => simp [need] at hf
    | succ f =>
      rw [show dumpVal .null = 'n' :: 'u' :: 'l' :: 'l' :: [] from rfl]
      simp only [List.cons_append, List.nil_append, parseVal]
      rw [skipWs_cons_not _ _ (by decide)]
      simp
  | bool b =>
    cases fuel with
    | zero => simp [need] at hf
    | succ f =>
      cases b with
      | true =>
        rw [show dumpVal (.bool true) = 't' :: 'r' :: 'u' :: 'e' :: [] from rfl]
        simp only [List.cons_append, List.nil_append, parseVal]
        rw [skipWs_cons_not _ _ (by decide)]
        simp
      | false =>
        rw [show dumpVal (.bool false) = 'f' :: 'a' :: 'l' :: 's' :: 'e' :: [] from rfl]
        simp only [List.cons_append, List.nil_append, parseVal]
        rw [skipWs_cons_not _ _ (by decide)]
        simp
  | num n =>
    cases fuel with
    | zero => simp [need] at hf
    | succ f =>
      obtain ⟨c, t, hct, hws, hcn, hct2, hcf, hcq, hcb, hclb, _, _, _, hnum⟩ := intDump_head n
      rw [show dumpVal (.num n) = intDump n from rfl, hct, List.cons_append]
      simp only [parseVal]
      rw [skipWs_cons_not _ _ hws]
      dsimp only
      rw [if_neg hcn, if_neg hct2, if_neg hcf, if_neg hcq, if_neg hcb, if_neg hclb,
        if_pos hnum, ← List.cons_append, ← hct, parseInt_intDump n rest hrest]
      rfl
  | str s =>
    cases fuel with
    | zero => simp [need] at hf
    | succ f =>
      rw [show dumpVal (.str s) = '"' :: (escList s.data ++ ['"']) from rfl]
      simp only [List.cons_append, List.append_assoc, List.singleton_append, parseVal]
      rw [skipWs_cons_not _ _ (by decide)]
      dsimp only
      rw [if_neg (show ('"' : Char) ≠ 'n' by decide),
        if_neg (show ('"' : Char) ≠ 't' by decide),
        if_neg (show ('"' : Char) ≠ 'f' by decide), if_pos rfl,
        parseStringBody_esc s.data _]
      simp [stringMk_data]
  | arr items =>
    cases fuel with
    | zero => simp [need] at hf
    | succ f =>
      have hl : needL items ≤ f := by simp only [need] at hf; omega
      rw [show dumpVal (.arr items) = '[' :: (dumpItems items ++ [']']) from rfl]
      simp only [List.cons_append, List.append_assoc, List.singleton_append,
        List.nil_append, parseVal]
      rw [skipWs_cons_not _ _ (by decide)]
      dsimp only
      rw [if_neg (show ('[' : Char) ≠ 'n' by decide),
        if_neg (show ('[' : Char) ≠ 't' by decide),
        if_neg (show ('[' : Char) ≠ 'f' by decide),
        if_neg (show ('[' : Char) ≠ '"' by decide), if_pos rfl,
        pitems_round items f hl rest]
      rfl
  | obj members =>
    cases fuel with
    | zero => simp [need] at hf
    | succ f =>
      have hm : needO members ≤ f := by simp only [need] at hf; omega
      rw [show dumpVal (.obj members) = lbrace :: (dumpMembers members ++ [rbrace]) from rfl]
      simp only [List.cons_append, List.append_assoc, List.singleton_append,
        List.nil_append, parseVal]
      rw [skipWs_cons_not _ _ (by decide)]
      dsimp only
      rw [if_neg (show lbrace ≠ 'n' by decide),
        if_neg (show lbrace ≠ 't' by decide),
        if_neg (show lbrace ≠ 'f' by decide),
        if_neg (show lbrace ≠ '"' by decide),
        if_neg (show lbrace ≠ '[' by decide), if_pos rfl,
        pmem_round members f hm rest]
      rfl

theorem pitems_round (l : JsonList) : ∀ (fuel : Nat), needL l ≤ fuel →
    ∀ (rest : List Char),
      parseItems fuel (dumpItems l ++ ']' :: rest) = some (l, rest) := by
  intro fuel h rest
  cases l with
  | nil =>
    cases fuel with
    | zero => simp [needL] at h
    | succ f =>
      simp only [dumpItems, List.nil_append, parseItems]
      rw [skipWs_cons_not _ _ (by decide)]
      simp
  | cons v t =>
    cases fuel with
    | zero => simp [needL] at h
    | succ f =>
      have hv : need v ≤ f := by simp only [needL] at h; omega
      have ht : needL t ≤ f := by simp only [needL] at h; omega
      obtain ⟨c, tv, hct, hws, hbr, _, _⟩ := dumpVal_head v
      simp only [dumpItems, List.append_assoc, parseItems]
      rw [hct, List.cons_append, skipWs_cons_not _ _ hws]
      dsimp only
      rw [if_neg hbr, ← List.cons_append, ← hct,
        pv_round v f hv _ (headNotDigit_itemsRest t rest)]
      dsimp only
      rw [pirest_round t f ht rest]

theorem pirest_round (l : JsonList) : ∀ (fuel : Nat), needL l ≤ fuel →
    ∀ (rest : List Char),
      parseItemsRest fuel (dumpItemsRest l ++ ']' :: rest) = some (l, rest) := by
  intro fuel h rest
  cases l with
  | nil =>
    cases fuel with
    | zero => simp [needL] at h
    | succ f =>
      simp only [dumpItemsRest, List.nil_append, parseItemsRest]
      rw [skipWs_cons_not _ _ (by decide)]
      simp
  | cons v t =>
    cases fuel with
    | zero => simp [needL] at h
    | succ f =>
      have hv : need v ≤ f := by simp only [needL] at h; omega
      have ht : needL t ≤ f := by simp only [needL] at h; omega
      simp only [dumpItemsRest, List.cons_append, List.append_assoc, parseItemsRest]
      rw [skipWs_cons_not _ _ (by decide)]
      dsimp only
      rw [if_neg (show (',' : Char) ≠ ']' by decide), if_pos rfl,
        parseVal_ws f ' ' _ (by decide),
        pv_round v f hv _ (headNotDigit_itemsRest t rest)]
      dsimp only
      rw [pirest_round t f ht rest]

theorem pmem_round (m : JsonObj) : ∀ (fuel : Nat), needO m ≤ fuel →
    ∀ (rest : List Char),
      parseMembers fuel (dumpMembers m ++ rbrace :: rest) = some (m, rest) := by
  intro fuel h rest
  cases m with
  | nil =>
    cases fuel with
    | zero => simp [needO] at h
    | succ f =>
      simp only [dumpMembers, List.nil_append, parseMembers]
      rw [skipWs_cons_not _ _ (by decide)]
      simp
  | cons k v t =>
    cases fuel with
    | zero => simp [needO] at h
    | succ f =>
      have hv : need v ≤ f := by simp only [needO] at h; omega
      have ht : needO t ≤ f := by simp only [needO] at h; omega
      simp only [dumpMembers, dumpString, List.cons_append, List.append_assoc,
        List.singleton_append, List.nil_append, parseMembers]
      rw [skipWs_cons_not _ _ (by decide)]
      dsimp only
      rw [if_neg (show ('"' : Char) ≠ rbrace by decide), if_pos rfl,
        parseStringBody_esc k.data _]
      dsimp only
      rw [skipWs_cons_not _ _ (by decide)]
      dsimp only
      rw [if_pos rfl, parseVal_ws f ' ' _ (by decide),
        pv_round v f hv _ (headNotDigit_memRest t rest)]
      dsimp only
      rw [pmemrest_round t f ht rest]

theorem pmemrest_round (m : JsonObj) : ∀ (fuel : Nat), needO m ≤ fuel →
    ∀ (rest : List Char),
      parseMembersRest fuel (dumpMembersRest m ++ rbrace :: rest) = some (m, rest) := by
  intro fuel h rest
  cases m with
  | nil =>
    cases fuel with
    | zero => simp [needO] at h
    | succ f =>
      simp only [dumpMembersRest, List.nil_append, parseMembersRest]
      rw [skipWs_cons_not _ _ (by decide)]
      simp
  | cons k v t =>
    cases fuel with
    | zero => simp [needO] at h
    | succ f =>
      have hv : need v ≤ f := by simp only [needO] at h; omega
      have ht : needO t ≤ f := by simp only [needO] at h; omega
      simp only [dumpMembersRest, dumpString, List.cons_append, List.append_assoc,
        List.singleton_append, List.nil_append, parseMembersRest]
      rw [skipWs_cons_not _ _ (by decide)]
      dsimp only
      rw [if_neg (show (',' : Char) ≠ rbrace by decide), if_pos rfl,
        skipWs_cons_ws _ _ (by decide), skipWs_cons_not _ _ (by decide)]
      dsimp only
      rw [if_pos rfl, parseStringBody_esc k.data _]
      dsimp only
      rw [skipWs_cons_not _ _ (by decide)]
      dsimp only
      rw [if_pos rfl, parseVal_ws f ' ' _ (by decide),
        pv_round v f hv _ (headNotDigit_memRest t rest)]
      dsimp only
      rw [pmemrest_round t f ht rest]

end

theorem dumpVal_length_pos (v : Json) : 1 ≤ (dumpVal v).length := by
  obtain ⟨c, t, hct, _⟩ := dumpVal_head v
  rw [hct]
  simp

mutual

theorem needBound_v (v : Json) : need v ≤ (dumpVal v).length := by
  cases v with
  | null => simp [need, dumpVal]
  | bool b => cases b <;> simp [need, dumpVal]
  | num n =>
    have := dumpVal_length_pos (.num n)
    simp only [need]
    omega
  | str s => simp [need, dumpVal, dumpString]
  | arr items =>
    have h := needBound_items items
    simp only [need, dumpVal, List.length_cons, List.length_append]
    omega
  | obj members =>
    have h := needBound_mem members
    simp only [need, dumpVal, List.length_cons, List.length_append]
    omega

theorem needBound_items (l : JsonList) : needL l ≤ (dumpItems l).length + 1 := by
  cases l with
  | nil => simp [needL, dumpItems]
  | cons v t =>
    have h1 := needBound_v v
    have h2 := needBound_itemsRest t
    have h3 := dumpVal_length_pos v
    simp only [needL, dumpItems, List.length_append]
    omega

theorem needBound_itemsRest (l : JsonList) : needL l ≤ (dumpItemsRest l).length + 1 := by
  cases l with
  | nil => simp [needL, dumpItemsRest]
  | cons v t =>
    have h1 := needBound_v v
    have h2 := needBound_itemsRest t
    simp only [needL, dumpItemsRest, List.length_cons, List.length_append]
    omega

theorem needBound_mem (m : JsonObj) : needO m ≤ (dumpMembers m).length + 1 := by
  cases m with
  | nil => simp [needO, dumpMembers]
  | cons k v t =>
    have h1 := needBound_v v
    have h2 := needBound_memRest t
    simp only [needO, dumpMembers, List.length_append, List.length_cons]
    omega

theorem needBound_memRest (m : JsonObj) : needO m ≤ (dumpMembersRest m).length + 1 := by
  cases m with
  | nil => simp [needO, dumpMembersRest]
  | cons k v t =>
    have h1 := needBound_v v
    have h2 := needBound_memRest t
    simp only [needO, dumpMembersRest, List.length_append, List.length_cons]
    omega

end

/-- Decoding inverts encoding on every modelled JSON value. -/
theorem jsonLoads_jsonDumps (v : Json) : jsonLoads (jsonDumps v) = some v := by
  have hb := needBound_v v
  have h := pv_round v ((dumpVal v).length + 1) (by omega) [] trivial
  rw [List.append_nil] at h
  simp only [jsonLoads, jsonDumps]
  rw [h]
  simp [skipWs]

/-! ### Request-merging lemmas -/

theorem lookup_set_self (m : JsonObj) (k : String) (v : Json) :
    (m.set k v).lookup k = some v := by
  match m with
  | .nil => simp [JsonObj.set, JsonObj.lookup]
  | .cons k0 v0 t =>
    by_cases h : k0 = k
    · simp [JsonObj.set, h, JsonObj.lookup]
    · simp only [JsonObj.set, if_neg h, JsonObj.lookup, if_neg h]
      exact lookup_set_self t k v

theorem lookup_set_other (m : JsonObj) (k : String) (v : Json) (k2 : String)
    (h : k ≠ k2) : (m.set k v).lookup k2 = m.lookup k2 := by
  match m with
  | .nil => simp [JsonObj.set, JsonObj.lookup, h]
  | .cons k0 v0 t =>
    by_cases h0 : k0 = k
    · subst h0
      simp [JsonObj.set, JsonObj.lookup, h]
    · simp only [JsonObj.set, if_neg h0, JsonObj.lookup]
      by_cases h2 : k0 = k2
      · simp [h2]
      · simp only [if_neg h2]
        exact lookup_set_other t k v k2 h

theorem mergeFilterDict_skip (k : String) (a : Option Json) (m : JsonObj)
    (h : optTruthy a = false) : mergeFilterDict k a m = m := by
  cases a with
  | none => rfl
  | some v =>
    simp only [optTruthy] at h
    simp [mergeFilterDict, h]

theorem mergeFilterDict_lookup_self (k : String) (a : Option Json) (m : JsonObj)
    (h : optTruthy a = true) : (mergeFilterDict k a m).lookup k = a := by
  cases a with
  | none => simp [optTruthy] at h
  | some v =>
    simp only [optTruthy] at h
    simp [mergeFilterDict, h, lookup_set_self]

theorem mergeFilterDict_lookup_other (k : String) (a : Option Json) (m : JsonObj)
    (k2 : String) (h : k ≠ k2) :
    (mergeFilterDict k a m).lookup k2 = m.lookup k2 := by
  cases a with
  | none => rfl
  | some v =>
    by_cases hp : pyTruthy v
    · simp [mergeFilterDict, hp, lookup_set_other _ _ _ _ h]
    · simp [mergeFilterDict, hp]

theorem mergeFilter_dict (k : String) (a : Option Json) (m : JsonObj) :
    mergeFilter k a (.dict m) = .ok (.dict (mergeFilterDict k a m)) := by
  cases a with
  | none => rfl
  | some v =>
    by_cases hp : pyTruthy v <;> simp [mergeFilter, mergeFilterDict, setReqKey, hp]

theorem mergeFilters_dict (p q r s : Option Json) (m : JsonObj) :
    mergeFilters p q r s (.dict m) = .ok (.dict (mergeFiltersDict p q r s m)) := by
  simp only [mergeFilters, mergeFilter_dict, Except.bind, mergeFiltersDict]

theorem mergeFilter_str (k : String) (a : Option Json) (s : String) :
    mergeFilter k a (.str s) =
      if optTruthy a then
        .error (.typeError "str object does not support item assignment")
      else .ok (.str s) := by
  cases a with
  | none => rfl
  | some v =>
    by_cases hp : pyTruthy v <;> simp [mergeFilter, setReqKey, optTruthy, hp]

theorem reqTruthy_dict_ne_nil (m : JsonObj) (h : m ≠ .nil) :
    reqTruthy (.dict m) = true := by
  cases m with
  | nil => exact absurd rfl h
  | cons k v t => rfl

/-- `find` on a dict request: merge the filters, then POST the serialized
merged dict when it is non-empty, else GET. -/
theorem find_dict (bp e ver : String) (p q r s : Option Json) (m : JsonObj) :
    find bp e ver p q r s (.dict m) =
      if reqTruthy (.dict (mergeFiltersDict p q r s m)) then
        .ok ⟨"POST", findPath bp e ver,
             some (jsonDumps (.obj (mergeFiltersDict p q r s m))), jsonHeaders⟩
      else .ok ⟨"GET", findPath bp e ver, none, []⟩ := by
  simp only [find, mergeFilters_dict, Except.bind, serializeReq]

/-! ## The claims -/

/-- C1: for every `find` call with a mapping request, if the merged request
mapping (the caller-supplied request after merging any supplied non-empty
projection/query/range/sort) is non-empty, the client sends a POST to the
endpoint path with the JSON-serialized body and the header
`Content-Type: application/json`; if the merged request is empty, it sends a
GET with no body. -/
theorem C1_find_post_or_get (bp e ver : String) (p q r s : Option Json)
    (m : JsonObj) :
    (mergeFiltersDict p q r s m ≠ .nil →
      find bp e ver p q r s (.dict m) =
        .ok ⟨"POST", findPath bp e ver,
             some (jsonDumps (.obj (mergeFiltersDict p q r s m))), jsonHeaders⟩) ∧
    (mergeFiltersDict p q r s m = .nil →
      find bp e ver p q r s (.dict m) =
        .ok ⟨"GET", findPath bp e ver, none, []⟩) := by
  constructor
  · intro hne
    rw [find_dict, if_pos (reqTruthy_dict_ne_nil _ hne)]
  · intro hnil
    rw [find_dict, hnil]
    rfl

/-- Witness for C1: a non-empty projection on an empty request POSTs the
merged body; no filters and an empty request GETs. -/
theorem C1_witness :
    find "/db" "E" "1.0" (some (.str "f")) none none none (.dict .nil) =
      .ok ⟨"POST", findPath "/db" "E" "1.0",
           some (jsonDumps (.obj (mergeFiltersDict (some (.str "f")) none none none .nil))),
           jsonHeaders⟩ ∧
    find "/db" "E" "1.0" none none none none (.dict .nil) =
      .ok ⟨"GET", findPath "/db" "E" "1.0", none, []⟩ :=
  ⟨(C1_find_post_or_get "/db" "E" "1.0" (some (.str "f")) none none none .nil).1
      (fun h => nomatch h),
   (C1_find_post_or_get "/db" "E" "1.0" none none none none .nil).2 rfl⟩

/-- C2 counterexample: with `data` an empty-but-present mapping (`data={}`)
and an empty request, `insert` does not fail — it sends a PUT whose body is
the serialization of the empty dict.  The claim says "data is absent or
empty" triggers the error; the code only checks `data is None`. -/
theorem C2_counterexample :
    insert "/db" "E" "1.0" (some (.obj .nil)) none (.dict .nil) =
      .ok ⟨"PUT", insertPath "/db" "E" "1.0", some (jsonDumps (.obj .nil)),
           jsonHeaders⟩ ∧
    insert "/db" "E" "1.0" (some (.obj .nil)) none (.dict .nil) ≠
      .error (.runtimeError "Must provide data or request") :=
  ⟨rfl, fun h => nomatch h⟩

/-- C2 (amended): `insert` fails with the no-content `RuntimeError` when
`data` is `None` (absent) and the request has length zero, and the failure
happens before any request is built or sent (the error return carries no
`HttpRequest`); an empty-but-present `data` does not trigger the check. -/
theorem C2_amended (bp e ver : String) (projection : Option Json)
    (request : ReqArg) (h : reqLen request = 0) :
    insert bp e ver none projection request =
      .error (.runtimeError "Must provide data or request") := by
  simp [insert, h]

/-- Witness for C2 (amended) at `data=None`, `request={}`. -/
theorem C2_witness :
    reqLen (.dict .nil) = 0 ∧
    insert "/db" "E" "1.0" none none (.dict .nil) =
      .error (.runtimeError "Must provide data or request") :=
  ⟨rfl, C2_amended "/db" "E" "1.0" none (.dict .nil) rfl⟩

/-- C3 counterexample: with a raw-string request and a non-empty projection,
the string is not sent unchanged — the merge is attempted and raises
`TypeError` (str item assignment), so no request is sent at all. -/
theorem C3_counterexample :
    find "/db" "E" "1.0" (some (.str "f")) none none none (.str "x") =
      .error (.typeError "str object does not support item assignment") ∧
    find "/db" "E" "1.0" (some (.str "f")) none none none (.str "x") ≠
      .ok ⟨"POST", findPath "/db" "E" "1.0", some "x", jsonHeaders⟩ :=
  ⟨rfl, fun h => nomatch h⟩

/-- C3 (amended): with a raw-string request and every filter absent or
falsy, the string flows unchanged to the `if request:` dispatch — a
non-empty string is sent unchanged as the POST body and an empty string
yields a GET with no body; any supplied truthy filter instead makes the
call fail with `TypeError` before anything is sent. -/
theorem C3_amended (bp e ver : String) (p q r s : Option Json) (str : String) :
    (optTruthy p = false → optTruthy q = false → optTruthy r = false →
      optTruthy s = false → str ≠ "" →
      find bp e ver p q r s (.str str) =
        .ok ⟨"POST", findPath bp e ver, some str, jsonHeaders⟩) ∧
    (optTruthy p = false → optTruthy q = false → optTruthy r = false →
      optTruthy s = false → str = "" →
      find bp e ver p q r s (.str str) =
        .ok ⟨"GET", findPath bp e ver, none, []⟩) ∧
    (optTruthy p = true ∨ optTruthy q = true ∨ optTruthy r = true ∨
        optTruthy s = true →
      find bp e ver p q r s (.str str) =
        .error (.typeError "str object does not support item assignment")) := by
  refine ⟨?_, ?_, ?_⟩
  · intro hp hq hr hs hne
    have ht : reqTruthy (.str str) = true := by simp [reqTruthy, hne]
    simp [find, mergeFilters, mergeFilter_str, hp, hq, hr, hs, Except.bind, ht,
      serializeReq]
  · intro hp hq hr hs h0
    subst h0
    have ht : reqTruthy (.str "") = false := rfl
    simp [find, mergeFilters, mergeFilter_str, hp, hq, hr, hs, Except.bind, ht]
  · intro hOr
    cases hp : optTruthy p with
    | true => simp [find, mergeFilters, mergeFilter_str, hp, Except.bind]
    | false =>
      cases hq : optTruthy q with
      | true => simp [find, mergeFilters, mergeFilter_str, hp, hq, Except.bind]
      | false =>
        cases hr : optTruthy r with
        | true => simp [find, mergeFilters, mergeFilter_str, hp, hq, hr, Except.bind]
        | false =>
          cases hs : optTruthy s with
          | true =>
            simp [find, mergeFilters, mergeFilter_str, hp, hq, hr, hs, Except.bind]
          | false => simp [hp, hq, hr, hs] at hOr

/-- Witness for C3 (amended): a bare non-empty string request POSTs
unchanged; a bare empty string request GETs; a string request plus a
projection raises. -/
theorem C3_witness :
    find "/db" "E" "1.0" none none none none (.str "x") =
      .ok ⟨"POST", findPath "/db" "E" "1.0", some "x", jsonHeaders⟩ ∧
    find "/db" "E" "1.0" none none none none (.str "") =
      .ok ⟨"GET", findPath "/db" "E" "1.0", none, []⟩ ∧
    find "/db" "E" "1.0" (some (.str "f")) none none none (.str "x") =
      .error (.typeError "str object does not support item assignment") :=
  ⟨(C3_amended "/db" "E" "1.0" none none none none "x").1 rfl rfl rfl rfl
      (by decide),
   (C3_amended "/db" "E" "1.0" none none none none "").2.1 rfl rfl rfl rfl rfl,
   (C3_amended "/db" "E" "1.0" (some (.str "f")) none none none "x").2.2
      (Or.inl rfl)⟩

/-- C4: on HTTP 200 the body is decoded by `json.loads` (which enforces the
JSON number grammar — leading-zero numerals are rejected — and builds each
object by repeated dict assignment, so duplicated keys keep their last
value) and the decoded value is returned; a body that does not decode fails
with the decode error, carrying the body; on any other status the call
fails with an error carrying the numeric status and the raw body, and the
body is never JSON-parsed (the result is independent of whether the body
decodes). -/
theorem C4_handle_response (status : Nat) (body : String) :
    (status = 200 → ∀ v : Json, jsonLoadsDict body = some v →
      handle_response status body = .ok v) ∧
    (status = 200 → jsonLoadsDict body = none →
      handle_response status body = .error (.valueError body)) ∧
    (status ≠ 200 → handle_response status body =
      .error (.runtimeError ("HTTP code: " ++ toString status ++ "; body " ++ body))) := by
  refine ⟨?_, ?_, ?_⟩
  · intro h v hv
    simp [handle_response, h, hv]
  · intro h hv
    simp [handle_response, h, hv]
  · intro h
    simp [handle_response, h]

/-- Witness for C4: a JSON body on 200; a leading-zero numeral and a broken
body rejected on 200; a duplicate-key object decoding last-wins on 200; and
a 404. -/
theorem C4_witness :
    handle_response 200 "3" = .ok (.num 3) ∧
    handle_response 200 "012" = .error (.valueError "012") ∧
    handle_response 200 "nope" = .error (.valueError "nope") ∧
    handle_response 200 (jsonDumps (.obj (.cons "a" (.num 0)
        (.cons "a" (.num 1) .nil)))) =
      .ok (.obj (.cons "a" (.num 1) .nil)) ∧
    handle_response 404 "not found" =
      .error (.runtimeError "HTTP code: 404; body not found") :=
  ⟨(C4_handle_response 200 "3").1 rfl (.num 3) rfl,
   (C4_handle_response 200 "012").2.1 rfl rfl,
   (C4_handle_response 200 "nope").2.1 rfl rfl,
   (C4_handle_response 200 (jsonDumps (.obj (.cons "a" (.num 0)
      (.cons "a" (.num 1) .nil))))).1 rfl (.obj (.cons "a" (.num 1) .nil)) rfl,
   (C4_handle_response 404 "not found").2.2 (by decide)⟩

/-- C5: for a `find` call with a mapping request, each supplied non-empty
filter binds its key (`projection`/`query`/`range`/`sort`) to exactly the
value provided in the merged mapping, overwriting any existing key of that
name; an absent or empty filter leaves that key of the request unchanged;
and the serialized JSON body sent is the serialization of that merged
mapping. -/
theorem C5_find_filter_merge (bp e ver : String) (p q r s : Option Json)
    (m : JsonObj) :
    ((optTruthy p = true →
        (mergeFiltersDict p q r s m).lookup "projection" = p) ∧
     (optTruthy p = false →
        (mergeFiltersDict p q r s m).lookup "projection" = m.lookup "projection")) ∧
    ((optTruthy q = true → (mergeFiltersDict p q r s m).lookup "query" = q) ∧
     (optTruthy q = false →
        (mergeFiltersDict p q r s m).lookup "query" = m.lookup "query")) ∧
    ((optTruthy r = true → (mergeFiltersDict p q r s m).lookup "range" = r) ∧
     (optTruthy r = false →
        (mergeFiltersDict p q r s m).lookup "range" = m.lookup "range")) ∧
    ((optTruthy s = true → (mergeFiltersDict p q r s m).lookup "sort" = s) ∧
     (optTruthy s = false →
        (mergeFiltersDict p q r s m).lookup "sort" = m.lookup "sort")) ∧
    (mergeFiltersDict p q r s m ≠ .nil →
      find bp e ver p q r s (.dict m) =
        .ok ⟨"POST", findPath bp e ver,
             some (jsonDumps (.obj (mergeFiltersDict p q r s m))), jsonHeaders⟩) := by
  refine ⟨⟨?_, ?_⟩, ⟨?_, ?_⟩, ⟨?_, ?_⟩, ⟨?_, ?_⟩, ?_⟩
  · intro hp
    simp only [mergeFiltersDict]
    rw [mergeFilterDict_lookup_other "sort" s _ "projection" (by decide),
      mergeFilterDict_lookup_other "range" r _ "projection" (by decide),
      mergeFilterDict_lookup_other "query" q _ "projection" (by decide),
      mergeFilterDict_lookup_self "projection" p m hp]
  · intro hp
    simp only [mergeFiltersDict]
    rw [mergeFilterDict_lookup_other "sort" s _ "projection" (by decide),
      mergeFilterDict_lookup_other "range" r _ "projection" (by decide),
      mergeFilterDict_lookup_other "query" q _ "projection" (by decide),
      mergeFilterDict_skip "projection" p m hp]
  · intro hq
    simp only [mergeFiltersDict]
    rw [mergeFilterDict_lookup_other "sort" s _ "query" (by decide),
      mergeFilterDict_lookup_other "range" r _ "query" (by decide),
      mergeFilterDict_lookup_self "query" q _ hq]
  · intro hq
    simp only [mergeFiltersDict]
    rw [mergeFilterDict_lookup_other "sort" s _ "query" (by decide),
      mergeFilterDict_lookup_other "range" r _ "query" (by decide),
      mergeFilterDict_skip "query" q _ hq,
      mergeFilterDict_lookup_other "projection" p m "query" (by decide)]
  · intro hr
    simp only [mergeFiltersDict]
    rw [mergeFilterDict_lookup_other "sort" s _ "range" (by decide),
      mergeFilterDict_lookup_self "range" r _ hr]
  · intro hr
    simp only [mergeFiltersDict]
    rw [mergeFilterDict_lookup_other "sort" s _ "range" (by decide),
      mergeFilterDict_skip "range" r _ hr,
      mergeFilterDict_lookup_other "query" q _ "range" (by decide),
      mergeFilterDict_lookup_other "projection" p m "range" (by decide)]
  · intro hs
    simp only [mergeFiltersDict]
    rw [mergeFilterDict_lookup_self "sort" s _ hs]
  · intro hs
    simp only [mergeFiltersDict]
    rw [mergeFilterDict_skip "sort" s _ hs,
      mergeFilterDict_lookup_other "range" r _ "sort" (by decide),
      mergeFilterDict_lookup_other "query" q _ "sort" (by decide),
      mergeFilterDict_lookup_other "projection" p m "sort" (by decide)]
  · intro hne
    rw [find_dict, if_pos (reqTruthy_dict_ne_nil _ hne)]

/-- Witness for C5: projection overwrites an existing `projection` key,
range is added, absent query/sort leave the request unchanged, and the POST
body is the merged serialization. -/
theorem C5_witness :
    (mergeFiltersDict (some (.str "P")) none (some (.num 5)) none
        (.cons "projection" (.num 7) .nil)).lookup "projection" = some (.str "P") ∧
    (mergeFiltersDict (some (.str "P")) none (some (.num 5)) none
        (.cons "projection" (.num 7) .nil)).lookup "query" =
      (JsonObj.cons "projection" (.num 7) .nil).lookup "query" ∧
    (mergeFiltersDict (some (.str "P")) none (some (.num 5)) none
        (.cons "projection" (.num 7) .nil)).lookup "range" = some (.num 5) ∧
    (mergeFiltersDict (some (.str "P")) none (some (.num 5)) none
        (.cons "projection" (.num 7) .nil)).lookup "sort" =
      (JsonObj.cons "projection" (.num 7) .nil).lookup "sort" ∧
    find "/db" "E" "1.0" (some (.str "P")) none (some (.num 5)) none
        (.dict (.cons "projection" (.num 7) .nil)) =
      .ok ⟨"POST", findPath "/db" "E" "1.0",
           some (jsonDumps (.obj (mergeFiltersDict (some (.str "P")) none
             (some (.num 5)) none (.cons "projection" (.num 7) .nil)))),
           jsonHeaders⟩ :=
  ⟨(C5_find_filter_merge "/db" "E" "1.0" (some (.str "P")) none (some (.num 5))
      none (.cons "projection" (.num 7) .nil)).1.1 rfl,
   (C5_find_filter_merge "/db" "E" "1.0" (some (.str "P")) none (some (.num 5))
      none (.cons "projection" (.num 7) .nil)).2.1.2 rfl,
   (C5_find_filter_merge "/db" "E" "1.0" (some (.str "P")) none (some (.num 5))
      none (.cons "projection" (.num 7) .nil)).2.2.1.1 rfl,
   (C5_find_filter_merge "/db" "E" "1.0" (some (.str "P")) none (some (.num 5))
      none (.cons "projection" (.num 7) .nil)).2.2.2.1.2 rfl,
   (C5_find_filter_merge "/db" "E" "1.0" (some (.str "P")) none (some (.num 5))
      none (.cons "projection" (.num 7) .nil)).2.2.2.2 (fun h => nomatch h)⟩

/-- C6 counterexample: a raw-string request plus non-empty `data` is not
passed through — the merge is attempted on the string and raises
`TypeError`, so no PUT is sent. -/
theorem C6_counterexample :
    insert "/db" "E" "1.0" (some (.num 1)) none (.str "x") =
      .error (.typeError "str object does not support item assignment") ∧
    insert "/db" "E" "1.0" (some (.num 1)) none (.str "x") ≠
      .ok ⟨"PUT", insertPath "/db" "E" "1.0", some "x", jsonHeaders⟩ :=
  ⟨rfl, fun h => nomatch h⟩

theorem strLength_ne_zero (s : String) (h : s ≠ "") : s.length ≠ 0 := by
  intro h0
  apply h
  cases s with
  | mk l =>
    cases l with
    | nil => rfl
    | cons c t => simp [String.length] at h0

/-- C6 (amended): past the precondition, a mapping request has non-empty
`data` merged under key `data` and non-empty `projection` under key
`projection`, and the merged mapping is serialized and PUT to
`{basePath}/insert/{entity}/{version}` with the JSON content-type header.
With a raw-string request, supplying non-empty `data` — or non-empty
`projection`, whenever the no-content precondition does not fire first —
raises `TypeError` (string item assignment) and nothing is sent; only when
`data` and `projection` are both absent or empty is the string passed
through unchanged as the PUT body. -/
theorem C6_amended (bp e ver : String) (data projection : Option Json)
    (m : JsonObj) (str : String) :
    (data.isNone = false ∨ m.length ≠ 0 →
      insert bp e ver data projection (.dict m) =
        .ok ⟨"PUT", insertPath bp e ver,
             some (jsonDumps (.obj (mergeFilterDict "projection" projection
               (mergeFilterDict "data" data m)))), jsonHeaders⟩) ∧
    (optTruthy data = true →
      (mergeFilterDict "projection" projection
        (mergeFilterDict "data" data m)).lookup "data" = data) ∧
    (optTruthy projection = true →
      (mergeFilterDict "projection" projection
        (mergeFilterDict "data" data m)).lookup "projection" = projection) ∧
    (optTruthy data = true →
      insert bp e ver data projection (.str str) =
        .error (.typeError "str object does not support item assignment")) ∧
    (optTruthy data = false → optTruthy projection = true →
      data.isNone = false ∨ str ≠ "" →
      insert bp e ver data projection (.str str) =
        .error (.typeError "str object does not support item assignment")) ∧
    (str ≠ "" → optTruthy data = false → optTruthy projection = false →
      insert bp e ver data projection (.str str) =
        .ok ⟨"PUT", insertPath bp e ver, some str, jsonHeaders⟩) := by
  refine ⟨?_, ?_, ?_, ?_, ?_, ?_⟩
  · intro hpre
    have hc : (data.isNone && reqLen (.dict m) == 0) = false := by
      rcases hpre with h | h
      · simp [h]
      · simp [reqLen, h]
    simp only [insert, hc, Bool.false_eq_true, if_false, mergeFilter_dict,
      Except.bind, serializeReq]
  · intro hd
    rw [mergeFilterDict_lookup_other "projection" projection _ "data" (by decide),
      mergeFilterDict_lookup_self "data" data m hd]
  · intro hp
    rw [mergeFilterDict_lookup_self "projection" projection _ hp]
  · intro hd
    have hn : data.isNone = false := by
      cases data with
      | none => simp [optTruthy] at hd
      | some v => rfl
    simp [insert, hn, mergeFilter_str, hd, Except.bind]
  · intro hd hp hpre
    have hc : (data.isNone && reqLen (.str str) == 0) = false := by
      rcases hpre with h | h
      · simp [h]
      · simp [reqLen, strLength_ne_zero str h]
    simp only [insert, hc, Bool.false_eq_true, if_false]
    rw [mergeFilter_str, if_neg (by simp [hd])]
    simp only [Except.bind]
    rw [mergeFilter_str, if_pos hp]
  · intro hne hd hp
    have hc : (data.isNone && reqLen (.str str) == 0) = false := by
      simp [reqLen, strLength_ne_zero str hne]
    simp only [insert, hc, Bool.false_eq_true, if_false]
    rw [mergeFilter_str, if_neg (by simp [hd])]
    simp only [Except.bind]
    rw [mergeFilter_str, if_neg (by simp [hp])]
    simp only [Except.bind, serializeReq]

/-- Witness for C6 (amended): non-empty data on an empty dict request PUTs
the merged body; non-empty data — or projection alone — with a string
request raises; a bare string request PUTs unchanged. -/
theorem C6_witness :
    insert "/db" "E" "1.0" (some (.num 1)) none (.dict .nil) =
      .ok ⟨"PUT", insertPath "/db" "E" "1.0",
           some (jsonDumps (.obj (mergeFilterDict "projection" none
             (mergeFilterDict "data" (some (.num 1)) .nil)))), jsonHeaders⟩ ∧
    (mergeFilterDict "projection" none
        (mergeFilterDict "data" (some (.num 1)) JsonObj.nil)).lookup "data" =
      some (.num 1) ∧
    (mergeFilterDict "projection" (some (.str "pr"))
        (mergeFilterDict "data" (some (.num 1)) JsonObj.nil)).lookup "projection" =
      some (.str "pr") ∧
    insert "/db" "E" "1.0" (some (.str "d")) none (.str "q") =
      .error (.typeError "str object does not support item assignment") ∧
    insert "/db" "E" "1.0" none (some (.str "pr")) (.str "q") =
      .error (.typeError "str object does not support item assignment") ∧
    insert "/db" "E" "1.0" none none (.str "x") =
      .ok ⟨"PUT", insertPath "/db" "E" "1.0", some "x", jsonHeaders⟩ :=
  ⟨(C6_amended "/db" "E" "1.0" (some (.num 1)) none .nil "x").1 (Or.inl rfl),
   (C6_amended "/db" "E" "1.0" (some (.num 1)) none .nil "x").2.1 rfl,
   (C6_amended "/db" "E" "1.0" (some (.num 1)) (some (.str "pr")) .nil "x").2.2.1 rfl,
   (C6_amended "/db" "E" "1.0" (some (.str "d")) none .nil "q").2.2.2.1 rfl,
   (C6_amended "/db" "E" "1.0" none (some (.str "pr")) .nil "q").2.2.2.2.1 rfl rfl
      (Or.inr (by decide)),
   (C6_amended "/db" "E" "1.0" none none .nil "x").2.2.2.2.2 (by decide) rfl rfl⟩

/-- C7: construction parses the URL into hostname, port (443 when absent)
and path, stripping exactly one trailing slash; `https://host.example/db/data/`
yields base path `/db/data`, and `find("Entity","1.0")` with no filters
targets `/db/data/find/Entity/1.0`. -/
theorem C7_url_normalization :
    (∀ url : String, (parseUrl url).port = none → (dcInit url).port = 443) ∧
    (∀ l : List Char, stripSlash (l ++ ['/']) = l) ∧
    (∀ l : List Char, l.getLast? ≠ some '/' → stripSlash l = l) ∧
    (dcInit "https://host.example/db/data/").hostname = "host.example" ∧
    (dcInit "https://host.example/db/data/").port = 443 ∧
    (dcInit "https://host.example/db/data/").path = "/db/data" ∧
    findPath (dcInit "https://host.example/db/data/").path "Entity" "1.0" =
      "/db/data/find/Entity/1.0" := by
  refine ⟨?_, ?_, ?_, rfl, rfl, rfl, rfl⟩
  · intro url h
    simp [dcInit, h]
  · intro l
    simp [stripSlash, List.getLast?_concat, List.dropLast_concat]
  · intro l h
    simp [stripSlash, h]

/-- Witness for C7: port defaulting on a URL without a port, and the
strip-one-slash behavior on concrete paths. -/
theorem C7_witness :
    (dcInit "https://host.example/db/data").port = 443 ∧
    stripSlash (['a'] ++ ['/']) = ['a'] ∧
    stripSlash ['a'] = ['a'] :=
  ⟨C7_url_normalization.1 "https://host.example/db/data" rfl,
   C7_url_normalization.2.1 ['a'],
   C7_url_normalization.2.2.1 ['a'] (by decide)⟩

/-- C8 counterexample: after a `find` with a non-empty projection and no
explicit request, a later `insert` with `data=None` and no explicit request
still raises the no-content error — `insert` has its own default dict,
distinct from `find`'s, so the claim's shared-across-both-methods behavior
does not hold. -/
theorem C8_counterexample :
    (insertCall
        ((findCall ⟨.nil, .nil⟩ "/db" "E" "1.0" (some (.str "f")) none none none
          none).2)
        "/db" "E" "1.0" none none none).1 =
      .error (.runtimeError "Must provide data or request") := rfl

/-- C8 (amended): `find`'s default request argument is one shared mapping:
keys merged by a call that omits `request` persist in it, so a later `find`
with no filters and no explicit request sends a POST of the accumulated
mapping instead of a GET; but `insert` owns a separate default mapping,
untouched by `find` calls, so an `insert` with `data=None` and no explicit
request still raises the no-content error while its own default is empty. -/
theorem C8_amended (st : Defaults) (bp e ver : String) (p : Option Json) :
    ((findCall st bp e ver p none none none none).2.findDefault =
      mergeFiltersDict p none none none st.findDefault) ∧
    ((findCall st bp e ver p none none none none).2.insertDefault =
      st.insertDefault) ∧
    (st.findDefault ≠ .nil →
      (findCall st bp e ver none none none none none).1 =
        .ok ⟨"POST", findPath bp e ver,
             some (jsonDumps (.obj st.findDefault)), jsonHeaders⟩) ∧
    (st.insertDefault = .nil →
      (insertCall st bp e ver none none none).1 =
        .error (.runtimeError "Must provide data or request")) := by
  refine ⟨rfl, rfl, ?_, ?_⟩
  · intro hne
    simp only [findCall]
    rw [find_dict]
    simp only [mergeFiltersDict, mergeFilterDict]
    rw [if_pos (reqTruthy_dict_ne_nil _ hne)]
  · intro hnil
    simp [insertCall, hnil, insert, reqLen, JsonObj.length]

/-- Witness for C8 (amended): with `find`'s default already holding a
projection and `insert`'s default empty, a filterless `find` POSTs the
accumulated mapping and `insert` raises. -/
theorem C8_witness :
    (findCall ⟨.cons "projection" (.str "f") .nil, .nil⟩ "/db" "E" "1.0" none
        none none none none).1 =
      .ok ⟨"POST", findPath "/db" "E" "1.0",
           some (jsonDumps (.obj (.cons "projection" (.str "f") .nil))),
           jsonHeaders⟩ ∧
    (insertCall ⟨.cons "projection" (.str "f") .nil, .nil⟩ "/db" "E" "1.0" none
        none none).1 =
      .error (.runtimeError "Must provide data or request") :=
  ⟨(C8_amended ⟨.cons "projection" (.str "f") .nil, .nil⟩ "/db" "E" "1.0"
      none).2.2.1 (fun h => nomatch h),
   (C8_amended ⟨.cons "projection" (.str "f") .nil, .nil⟩ "/db" "E" "1.0"
      none).2.2.2 rfl⟩

/-- C9: serializing a request mapping to JSON and parsing the serialized
text back yields a value deep-equal to the original mapping, for every
mapping built from the supported JSON value types. -/
theorem C9_roundtrip (m : JsonObj) :
    jsonLoads (jsonDumps (.obj m)) = some (.obj m) :=
  jsonLoads_jsonDumps (.obj m)

/-- C10: entering a scope returns the connection object itself unchanged,
and exiting the scope — whether the body finished normally or with an
in-flight failure — runs `close()` exactly once more than the body did,
while propagating the body's outcome. -/
theorem C10_scoped_lifecycle :
    (∀ c : ConnInfo, enterConn c = c) ∧
    (∀ (α : Type) (c : ConnInfo) (st : ConnState)
        (body : ConnInfo → ConnState → Except PyError α × ConnState),
      (withStmt c st body).1 = (body c st).1 ∧
      (withStmt c st body).2.closeCalls = (body c st).2.closeCalls + 1) :=
  ⟨fun _ => rfl, fun _ _ _ _ => ⟨rfl, rfl⟩⟩

end Lightblue
